import Mathlib

/-!
# Arithmetic API service (`main.go`)

A shallow embedding of the request handlers of the calculator service.

* Go `int` (64-bit, two's complement) is modelled as `Int` together with the explicit
  wrap-around `wrapInt`; every arithmetic operator of the source is the exact operation
  followed by `wrapInt`.  Division and modulo by zero are run-time panics (`none`).
* A `ResponseWriter` is the chronological list of the calls the handlers make on the
  writer and on the process-wide logger.
* The two library calls whose outcome depends on the wire are inputs: the outcome of
  `httputil.DumpRequest(req, true)` is the field `Request.dump`, and
  `json.NewDecoder(req.Body).Decode(&payload)` is the parameter `jsonDecode`
  of `decodeJSONBody`.
-/

namespace Calculator

/-! ## Go `int` -/

/-- The most negative Go `int` (64-bit). -/
def minInt : Int := -(2 ^ 63)

/-- The largest Go `int` (64-bit). -/
def maxInt : Int := 2 ^ 63 - 1

/-- The value is representable as a Go `int`. -/
def isInt (x : Int) : Prop := minInt ≤ x ∧ x ≤ maxInt

instance (x : Int) : Decidable (isInt x) := by
  unfold isInt; exact inferInstance

/-- Two's-complement wrap-around of a mathematical integer into the Go `int` range. -/
def wrapInt (x : Int) : Int := (x + 2 ^ 63) % 2 ^ 64 - 2 ^ 63

/-- Go `x + y` on `int`. -/
def goAdd (x y : Int) : Int := wrapInt (x + y)

/-- Go `x - y` on `int`. -/
def goSub (x y : Int) : Int := wrapInt (x - y)

/-- Go `x * y` on `int`. -/
def goMul (x y : Int) : Int := wrapInt (x * y)

/-- Go `x / y` on `int`: truncated toward zero, wrapping on overflow; a zero divisor is a
run-time panic (`none`). -/
def goDiv (x y : Int) : Option Int :=
  if y = 0 then none else some (wrapInt (Int.tdiv x y))

/-- Go `x % y` on `int`: the remainder of the truncated division; a zero divisor is a
run-time panic (`none`). -/
def goMod (x y : Int) : Option Int :=
  if y = 0 then none else some (wrapInt (Int.tmod x y))

/-! ## Data model -/

/-- Go `NumbersStruct`. -/
structure NumbersStruct where
  Number1 : Int
  Number2 : Int
deriving DecidableEq, Repr

/-- Go `ResponseStruct`. -/
structure ResponseStruct where
  Result : Int
deriving DecidableEq, Repr

/-- Go `DivideResponseStruct`. -/
structure DivideResponseStruct where
  Quotient : Int
  Remainder : Int
deriving DecidableEq, Repr

/-- The values handed to `writeResponse` (its parameter has type `any`). -/
inductive Payload where
  | result (r : ResponseStruct)
  | divide (d : DivideResponseStruct)
deriving DecidableEq, Repr

/-- Levels of the `slog` calls. -/
inductive LogLevel where
  | info
  | warn
  | error
deriving DecidableEq, Repr

/-- One call made by a handler on the logger or on the response writer. -/
inductive Effect where
  /-- The call `slog.Info/Warn/Error(msg, key, value)`. -/
  | slog (level : LogLevel) (msg : String) (key : String) (value : String)
  /-- The call `http.Error(w, msg, code)`. -/
  | httpError (msg : String) (code : Nat)
  /-- The call `w.Header().Set(key, value)`. -/
  | setHeader (key : String) (value : String)
  /-- The call `json.NewEncoder(w).Encode(v)`. -/
  | encode (v : Payload)
  /-- The call `fmt.Fprint(w, s)` (or `fmt.Fprintf(w, s)` without arguments). -/
  | fprint (s : String)
deriving DecidableEq, Repr

/-- The response writer together with the log: the calls made so far, oldest first. -/
abbrev ResponseWriter := List Effect

/-- An inbound request as the handlers observe it. -/
structure Request where
  /-- The field `req.Method`. -/
  Method : String
  /-- Outcome of `httputil.DumpRequest(req, true)`: the dump, or the error. -/
  dump : Except String String
  /-- The bytes the JSON decoder reads from `req.Body`. -/
  Body : String

/-- Go `http.MethodPost`. -/
def MethodPost : String := "POST"

/-- Go `http.StatusInternalServerError`. -/
def StatusInternalServerError : Nat := 500

/-- Go `http.StatusBadRequest`. -/
def StatusBadRequest : Nat := 400

/-- Go `http.StatusMethodNotAllowed`. -/
def StatusMethodNotAllowed : Nat := 405

/-! ## The helpers -/

/-- Go `dumpRequest`. It returns nothing: the caller cannot tell whether the dump failed. -/
def dumpRequest (w : ResponseWriter) (req : Request) : ResponseWriter :=
  match req.dump with
  | .error err =>
    w ++ [.slog .error "Error while dumping request" "error" err,
          .httpError err StatusInternalServerError]
  | .ok dump => w ++ [.slog .info "Received request" "dump" dump]

/-- Go `writeResponse`. -/
def writeResponse (w : ResponseWriter) (v : Payload) : ResponseWriter :=
  w ++ [.setHeader "Content-Type" "application/json", .encode v]

/-- Go `decodeJSONBody[T]`: the writer afterwards, the returned pointer (`none` is `nil`)
and the returned flag. -/
def decodeJSONBody {T : Type} (jsonDecode : String → Except String T)
    (w : ResponseWriter) (req : Request) : ResponseWriter × Option T × Bool :=
  if req.Method = MethodPost then
    match jsonDecode req.Body with
    | .error err =>
      (w ++ [.slog .error "Error while decoding JSON" "error" err,
             .httpError err StatusBadRequest], none, false)
    | .ok payload => (w, some payload, true)
  else
    (w ++ [.slog .warn "Method not allowed" "method" req.Method,
           .httpError "Method not allowed!" StatusMethodNotAllowed], none, false)

/-! ## The handlers

A handler returns the writer after the call, or `none` when it panics (a `nil`
dereference or an integer division by zero). -/

/-- Go `helloHandler`. -/
def helloHandler (w : ResponseWriter) (req : Request) : Option ResponseWriter :=
  let w := dumpRequest w req
  if req.Method = MethodPost then
    some (w ++ [.fprint "Received POST request!"])
  else
    some (w ++ [.fprint "Request received and logged!"])

/-- Go `addHandler`. -/
def addHandler (jsonDecode : String → Except String NumbersStruct)
    (w : ResponseWriter) (req : Request) : Option ResponseWriter :=
  let w := dumpRequest w req
  match decodeJSONBody jsonDecode w req with
  | (w, val, true) => do
    let val ← val
    let totalSum := goAdd val.Number1 val.Number2
    pure (writeResponse w (.result { Result := totalSum }))
  | (w, _, false) => some w

/-- Go `subtractHandler`. -/
def subtractHandler (jsonDecode : String → Except String NumbersStruct)
    (w : ResponseWriter) (req : Request) : Option ResponseWriter :=
  let w := dumpRequest w req
  match decodeJSONBody jsonDecode w req with
  | (w, val, true) => do
    let val ← val
    let res := goSub val.Number1 val.Number2
    pure (writeResponse w (.result { Result := res }))
  | (w, _, false) => some w

/-- Go `multiplyHandler`. -/
def multiplyHandler (jsonDecode : String → Except String NumbersStruct)
    (w : ResponseWriter) (req : Request) : Option ResponseWriter :=
  let w := dumpRequest w req
  match decodeJSONBody jsonDecode w req with
  | (w, val, true) => do
    let val ← val
    let result := goMul val.Number1 val.Number2
    pure (writeResponse w (.result { Result := result }))
  | (w, _, false) => some w

/-- Go `divideHandler`. -/
def divideHandler (jsonDecode : String → Except String NumbersStruct)
    (w : ResponseWriter) (req : Request) : Option ResponseWriter :=
  let w := dumpRequest w req
  match decodeJSONBody jsonDecode w req with
  | (w, val, true) => do
    let val ← val
    if val.Number2 = 0 then
      pure (w ++ [.slog .error "Number 2 cannot be 0!" "reason" "cannot divide by 0",
                  .httpError "Number 2 value cannot be 0!" StatusBadRequest])
    else
      let quotient ← goDiv val.Number1 val.Number2
      let remainder ← goMod val.Number1 val.Number2
      pure (writeResponse w (.divide { Quotient := quotient, Remainder := remainder }))
  | (w, _, false) => some w

/-- Go `sumHandler`: `res` starts at zero and every element is added with `+=`. -/
def sumHandler (jsonDecode : String → Except String (List Int))
    (w : ResponseWriter) (req : Request) : Option ResponseWriter :=
  let w := dumpRequest w req
  match decodeJSONBody jsonDecode w req with
  | (w, nums, true) => do
    let nums ← nums
    let res := nums.foldl (fun res val => goAdd res val) 0
    pure (writeResponse w (.result { Result := res }))
  | (w, _, false) => some w

/-! ## Reading a writer as an HTTP response -/

/-- The call writes to the response (status line or body); logging and header edits do not. -/
def Effect.isWrite : Effect → Bool
  | .httpError _ _ => true
  | .encode _ => true
  | .fprint _ => true
  | .slog _ _ _ _ => false
  | .setHeader _ _ => false

/-- The response-writing calls of a writer, oldest first. -/
def responses (w : ResponseWriter) : List Effect := w.filter Effect.isWrite

/-- The status the client receives: the first write fixes it (`http.Error` sends its code,
a plain body write sends 200, and so does a handler that writes nothing). -/
def statusCode (w : ResponseWriter) : Nat :=
  match responses w with
  | .httpError _ code :: _ => code
  | _ => 200

/-- The values the handler serialised as JSON results, oldest first. -/
def results (w : ResponseWriter) : List Payload :=
  w.filterMap fun e => match e with
    | .encode v => some v
    | _ => none

/-! ## Named call sequences and example inputs -/

/-- A JSON decoder that is known on one body only: it decodes `body` to `val` and rejects
every other input. -/
def decodeOnly {T : Type} (body : String) (val : T) : String → Except String T :=
  fun s => if s = body then .ok val else .error "invalid character"

/-- A request with the given method whose body could be read, so that the dump succeeded. -/
def readableRequest (method body : String) : Request :=
  { Method := method, dump := .ok body, Body := body }

/-- A request whose body stream breaks while it is read (the client announced more bytes
than it sent): the dump fails and nothing is left for the decoder. -/
def truncatedRequest (method : String) : Request :=
  { Method := method, dump := .error "unexpected EOF", Body := "" }

/-- A JSON decoder on a body it cannot parse: it reports `err`. -/
def decodeRejecting {T : Type} (err : String) : String → Except String T :=
  fun _ => .error err

/-- A JSON decoder at the end of its input: it reports `EOF`. -/
def decodeEOF {T : Type} : String → Except String T :=
  fun _ => .error "EOF"

/-- The handlers that `main` registers for `/add`, `/subtract`, `/multiply`, `/divide`:
those that decode a `NumbersStruct`. -/
def pairHandlers :
    List ((String → Except String NumbersStruct) → ResponseWriter → Request →
      Option ResponseWriter) :=
  [addHandler, subtractHandler, multiplyHandler, divideHandler]

/-- The calls of `decodeJSONBody` on a request whose method is not POST. -/
def methodNotAllowed (req : Request) : List Effect :=
  [.slog .warn "Method not allowed" "method" req.Method,
   .httpError "Method not allowed!" 405]

/-- The calls of `decodeJSONBody` when the JSON decoder fails with `err`. -/
def decodeFailure (err : String) : List Effect :=
  [.slog .error "Error while decoding JSON" "error" err, .httpError err 400]

/-- The log line of a successful `dumpRequest`. -/
def dumpLine (dump : String) : Effect := .slog .info "Received request" "dump" dump

/-- The header edit of `writeResponse`. -/
def jsonHeader : Effect := .setHeader "Content-Type" "application/json"

/-! ## Arithmetic lemmas -/

theorem wrapInt_eq_self_iff (x : Int) : wrapInt x = x ↔ isInt x := by
  unfold wrapInt isInt minInt maxInt
  constructor <;> intro h <;> omega

theorem isInt_wrapInt (x : Int) : isInt (wrapInt x) := by
  unfold wrapInt isInt minInt maxInt
  omega

theorem wrapInt_wrapInt_add (x y : Int) : wrapInt (wrapInt x + y) = wrapInt (x + y) := by
  unfold wrapInt
  omega

theorem foldl_goAdd_wrapInt (nums : List Int) (acc : Int) :
    nums.foldl (fun res val => goAdd res val) (wrapInt acc) = wrapInt (acc + nums.sum) := by
  induction nums generalizing acc with
  | nil => simp
  | cons v vs ih =>
    have step : goAdd (wrapInt acc) v = wrapInt (acc + v) := wrapInt_wrapInt_add acc v
    rw [List.foldl_cons, List.sum_cons, step, ih, Int.add_assoc]

theorem foldl_goAdd_zero (nums : List Int) :
    nums.foldl (fun res val => goAdd res val) 0 = wrapInt nums.sum := by
  have h := foldl_goAdd_wrapInt nums 0
  have h0 : wrapInt 0 = 0 := by decide
  rw [h0, Int.zero_add] at h
  exact h

theorem tmod_sign_bounds (a b : Int) (hb : b ≠ 0) :
    (0 ≤ a → 0 ≤ Int.tmod a b ∧ Int.tmod a b < |b|) ∧
    (a ≤ 0 → Int.tmod a b ≤ 0 ∧ -|b| < Int.tmod a b) := by
  have hpos : ∀ x y : Int, 0 ≤ x → y ≠ 0 → 0 ≤ Int.tmod x y ∧ Int.tmod x y < |y| := by
    intro x y hx hy
    refine ⟨Int.tmod_nonneg y hx, ?_⟩
    rcases lt_or_gt_of_ne hy with hneg | hpos
    · have h1 := Int.tmod_lt_of_pos x (show 0 < -y by omega)
      rw [Int.tmod_neg] at h1
      rw [abs_of_neg hneg]
      exact h1
    · rw [abs_of_pos hpos]
      exact Int.tmod_lt_of_pos x hpos
  have hneg : ∀ x y : Int, Int.tmod (-x) y = -Int.tmod x y := by
    intro x y
    rw [Int.tmod_def, Int.tmod_def, Int.neg_tdiv]
    ring
  refine ⟨fun ha => hpos a b ha hb, fun ha => ?_⟩
  have h := hpos (-a) b (by omega) hb
  rw [hneg] at h
  omega

theorem isInt_tmod (a b : Int) (hb : isInt b) (hb0 : b ≠ 0) : isInt (Int.tmod a b) := by
  have h := tmod_sign_bounds a b hb0
  unfold isInt minInt maxInt at *
  rcases abs_cases b with ⟨e, _⟩ | ⟨e, _⟩ <;> rw [e] at h <;>
  rcases le_total 0 a with h0 | h0
  · have := h.1 h0; omega
  · have := h.2 h0; omega
  · have := h.1 h0; omega
  · have := h.2 h0; omega

theorem isInt_tdiv (a b : Int) (ha : isInt a) (hb : b ≠ 0) (h : ¬ (a = minInt ∧ b = -1)) :
    isInt (Int.tdiv a b) := by
  have hle : (Int.tdiv a b).natAbs ≤ a.natAbs := by
    rw [Int.natAbs_tdiv]
    exact Nat.div_le_self _ _
  unfold isInt minInt maxInt at *
  by_cases h1 : b = 1
  · subst h1; rw [Int.tdiv_one]; exact ha
  by_cases h2 : b = -1
  · subst h2
    rw [Int.tdiv_neg, Int.tdiv_one]
    omega
  have hb2 : 2 ≤ b.natAbs := by omega
  have hq : (Int.tdiv a b).natAbs ≤ a.natAbs / 2 := by
    rw [Int.natAbs_tdiv]
    exact Nat.div_le_div_left hb2 (by decide)
  omega

/-! ## The helpers on a request that passed the earlier stages -/

theorem dumpRequest_ok (w : ResponseWriter) (req : Request) (dump : String)
    (hd : req.dump = .ok dump) : dumpRequest w req = w ++ [dumpLine dump] := by
  simp [dumpRequest, hd, dumpLine]

theorem decodeJSONBody_ok {T : Type} (jsonDecode : String → Except String T)
    (w : ResponseWriter) (req : Request) (payload : T)
    (hm : req.Method = MethodPost) (hdec : jsonDecode req.Body = .ok payload) :
    decodeJSONBody jsonDecode w req = (w, some payload, true) := by
  simp [decodeJSONBody, hm, hdec]

/-! ## `/add`, `/subtract`, `/multiply`, `/sum` -/

theorem addHandler_decoded (jsonDecode : String → Except String NumbersStruct)
    (req : Request) (dump : String) (val : NumbersStruct)
    (hm : req.Method = MethodPost) (hd : req.dump = .ok dump)
    (hdec : jsonDecode req.Body = .ok val) :
    addHandler jsonDecode [] req
      = some [dumpLine dump, jsonHeader,
          .encode (.result ⟨wrapInt (val.Number1 + val.Number2)⟩)] := by
  simp [addHandler, dumpRequest_ok _ _ _ hd, decodeJSONBody_ok _ _ _ _ hm hdec,
    writeResponse, goAdd, jsonHeader]


/-- C1 (counterexample): on the Go ints `number1 = 2^63 - 1`, `number2 = 1` the `/add`
handler answers `-2^63` and not the exact sum `2^63`. -/
theorem addHandler_exact_sum_fails :
    isInt (2 ^ 63 - 1) ∧ isInt 1 ∧
    (addHandler (decodeOnly "\x7b\"number1\":9223372036854775807,\"number2\":1\x7d"
        ⟨2 ^ 63 - 1, 1⟩) []
      (readableRequest "POST" "\x7b\"number1\":9223372036854775807,\"number2\":1\x7d")).map results
      = some [.result ⟨-(2 ^ 63)⟩] ∧
    (-(2 ^ 63) : Int) ≠ (2 ^ 63 - 1) + 1 := by
  decide

/-- C1 (amended): a POST to `/add` whose body was read and decodes to `number1 = a`,
`number2 = b` logs the dump and writes exactly the JSON result `wrapInt (a + b)` with
status 200; that value is a Go int and it is the exact sum `a + b` precisely when the
exact sum is itself a Go int. -/
theorem addHandler_wrapped_sum (jsonDecode : String → Except String NumbersStruct)
    (req : Request) (dump : String) (a b : Int)
    (hm : req.Method = MethodPost) (hd : req.dump = .ok dump)
    (hdec : jsonDecode req.Body = .ok ⟨a, b⟩) :
    addHandler jsonDecode [] req
      = some [dumpLine dump, jsonHeader, .encode (.result ⟨wrapInt (a + b)⟩)] ∧
    (addHandler jsonDecode [] req).map statusCode = some 200 ∧
    isInt (wrapInt (a + b)) ∧
    (wrapInt (a + b) = a + b ↔ isInt (a + b)) := by
  have h : addHandler jsonDecode [] req
      = some [dumpLine dump, jsonHeader, .encode (.result ⟨wrapInt (a + b)⟩)] := by
    simp [addHandler, dumpRequest_ok _ _ _ hd, decodeJSONBody_ok _ _ _ _ hm hdec,
      writeResponse, goAdd, jsonHeader]
  refine ⟨h, ?_, isInt_wrapInt _, wrapInt_eq_self_iff _⟩
  rw [h]
  rfl

/-- C1 (witness): the body `{"number1":3,"number2":4}` gives `{"result":7}`. -/
theorem addHandler_wrapped_sum_witness :
    addHandler (decodeOnly "\x7b\"number1\":3,\"number2\":4\x7d" ⟨3, 4⟩) []
      (readableRequest "POST" "\x7b\"number1\":3,\"number2\":4\x7d")
      = some [dumpLine "\x7b\"number1\":3,\"number2\":4\x7d", jsonHeader,
          .encode (.result ⟨7⟩)] :=
  (addHandler_wrapped_sum (decodeOnly "\x7b\"number1\":3,\"number2\":4\x7d" ⟨3, 4⟩)
    (readableRequest "POST" "\x7b\"number1\":3,\"number2\":4\x7d")
    "\x7b\"number1\":3,\"number2\":4\x7d" 3 4 rfl rfl rfl).1

/-- C6 (counterexample): on the Go ints `number1 = -2^63`, `number2 = 1` the `/subtract`
handler answers `2^63 - 1` and not the exact difference `-2^63 - 1`. -/
theorem subtractHandler_exact_difference_fails :
    isInt (-(2 ^ 63)) ∧ isInt 1 ∧
    (subtractHandler (decodeOnly "\x7b\"number1\":-9223372036854775808,\"number2\":1\x7d"
        ⟨-(2 ^ 63), 1⟩) []
      (readableRequest "POST"
        "\x7b\"number1\":-9223372036854775808,\"number2\":1\x7d")).map results
      = some [.result ⟨2 ^ 63 - 1⟩] ∧
    (2 ^ 63 - 1 : Int) ≠ -(2 ^ 63) - 1 := by
  decide

/-- C6 (amended): a POST to `/subtract` whose body was read and decodes to `number1 = a`,
`number2 = b` logs the dump and writes exactly the JSON result `wrapInt (a - b)`
(`number1` is the minuend) with status 200; that value is a Go int and it is the exact
difference `a - b` precisely when the exact difference is itself a Go int. -/
theorem subtractHandler_wrapped_difference
    (jsonDecode : String → Except String NumbersStruct)
    (req : Request) (dump : String) (a b : Int)
    (hm : req.Method = MethodPost) (hd : req.dump = .ok dump)
    (hdec : jsonDecode req.Body = .ok ⟨a, b⟩) :
    subtractHandler jsonDecode [] req
      = some [dumpLine dump, jsonHeader, .encode (.result ⟨wrapInt (a - b)⟩)] ∧
    (subtractHandler jsonDecode [] req).map statusCode = some 200 ∧
    isInt (wrapInt (a - b)) ∧
    (wrapInt (a - b) = a - b ↔ isInt (a - b)) := by
  have h : subtractHandler jsonDecode [] req
      = some [dumpLine dump, jsonHeader, .encode (.result ⟨wrapInt (a - b)⟩)] := by
    simp [subtractHandler, dumpRequest_ok _ _ _ hd, decodeJSONBody_ok _ _ _ _ hm hdec,
      writeResponse, goSub, jsonHeader]
  refine ⟨h, ?_, isInt_wrapInt _, wrapInt_eq_self_iff _⟩
  rw [h]
  rfl

/-- C6 (witness): the body `{"number1":3,"number2":10}` gives `{"result":-7}`. -/
theorem subtractHandler_wrapped_difference_witness :
    subtractHandler (decodeOnly "\x7b\"number1\":3,\"number2\":10\x7d" ⟨3, 10⟩) []
      (readableRequest "POST" "\x7b\"number1\":3,\"number2\":10\x7d")
      = some [dumpLine "\x7b\"number1\":3,\"number2\":10\x7d", jsonHeader,
          .encode (.result ⟨-7⟩)] :=
  (subtractHandler_wrapped_difference
    (decodeOnly "\x7b\"number1\":3,\"number2\":10\x7d" ⟨3, 10⟩)
    (readableRequest "POST" "\x7b\"number1\":3,\"number2\":10\x7d")
    "\x7b\"number1\":3,\"number2\":10\x7d" 3 10 rfl rfl rfl).1

/-- C5 (counterexample): on the Go ints `number1 = number2 = 2^32` the `/multiply` handler
answers `0` and not the exact product `2^64`. -/
theorem multiplyHandler_exact_product_fails :
    isInt (2 ^ 32) ∧
    (multiplyHandler (decodeOnly "\x7b\"number1\":4294967296,\"number2\":4294967296\x7d"
        ⟨2 ^ 32, 2 ^ 32⟩) []
      (readableRequest "POST"
        "\x7b\"number1\":4294967296,\"number2\":4294967296\x7d")).map results
      = some [.result ⟨0⟩] ∧
    (0 : Int) ≠ 2 ^ 32 * 2 ^ 32 := by
  decide

/-- C5 (amended): a POST to `/multiply` whose body was read and decodes to `number1 = a`,
`number2 = b` logs the dump and writes exactly the JSON result `wrapInt (a * b)` with
status 200; that value is a Go int and it is the exact product `a * b` precisely when the
exact product is itself a Go int. -/
theorem multiplyHandler_wrapped_product
    (jsonDecode : String → Except String NumbersStruct)
    (req : Request) (dump : String) (a b : Int)
    (hm : req.Method = MethodPost) (hd : req.dump = .ok dump)
    (hdec : jsonDecode req.Body = .ok ⟨a, b⟩) :
    multiplyHandler jsonDecode [] req
      = some [dumpLine dump, jsonHeader, .encode (.result ⟨wrapInt (a * b)⟩)] ∧
    (multiplyHandler jsonDecode [] req).map statusCode = some 200 ∧
    isInt (wrapInt (a * b)) ∧
    (wrapInt (a * b) = a * b ↔ isInt (a * b)) := by
  have h : multiplyHandler jsonDecode [] req
      = some [dumpLine dump, jsonHeader, .encode (.result ⟨wrapInt (a * b)⟩)] := by
    simp [multiplyHandler, dumpRequest_ok _ _ _ hd, decodeJSONBody_ok _ _ _ _ hm hdec,
      writeResponse, goMul, jsonHeader]
  refine ⟨h, ?_, isInt_wrapInt _, wrapInt_eq_self_iff _⟩
  rw [h]
  rfl

/-- C5 (witness): the body `{"number1":-6,"number2":7}` gives `{"result":-42}`. -/
theorem multiplyHandler_wrapped_product_witness :
    multiplyHandler (decodeOnly "\x7b\"number1\":-6,\"number2\":7\x7d" ⟨-6, 7⟩) []
      (readableRequest "POST" "\x7b\"number1\":-6,\"number2\":7\x7d")
      = some [dumpLine "\x7b\"number1\":-6,\"number2\":7\x7d", jsonHeader,
          .encode (.result ⟨-42⟩)] :=
  (multiplyHandler_wrapped_product
    (decodeOnly "\x7b\"number1\":-6,\"number2\":7\x7d" ⟨-6, 7⟩)
    (readableRequest "POST" "\x7b\"number1\":-6,\"number2\":7\x7d")
    "\x7b\"number1\":-6,\"number2\":7\x7d" (-6) 7 rfl rfl rfl).1

/-- C4 (counterexample): on the list `[2^63 - 1, 1]` of Go ints the `/sum` handler answers
`-2^63` and not the exact sum `2^63`. -/
theorem sumHandler_exact_sum_fails :
    isInt (2 ^ 63 - 1) ∧ isInt 1 ∧
    (sumHandler (decodeOnly "[9223372036854775807,1]" [2 ^ 63 - 1, 1]) []
      (readableRequest "POST" "[9223372036854775807,1]")).map results
      = some [.result ⟨-(2 ^ 63)⟩] ∧
    (-(2 ^ 63) : Int) ≠ [2 ^ 63 - 1, 1].sum := by
  decide

/-- C4 (amended): a POST to `/sum` whose body was read and decodes to the list `nums`
logs the dump and writes exactly the JSON result `wrapInt nums.sum` with status 200: the
left-to-right wrapping accumulation from 0 equals the exact sum wrapped once. That value
is a Go int, it is the exact sum precisely when the exact sum is itself a Go int, and for
the empty list it is 0. -/
theorem sumHandler_wrapped_sum (jsonDecode : String → Except String (List Int))
    (req : Request) (dump : String) (nums : List Int)
    (hm : req.Method = MethodPost) (hd : req.dump = .ok dump)
    (hdec : jsonDecode req.Body = .ok nums) :
    sumHandler jsonDecode [] req
      = some [dumpLine dump, jsonHeader, .encode (.result ⟨wrapInt nums.sum⟩)] ∧
    (sumHandler jsonDecode [] req).map statusCode = some 200 ∧
    isInt (wrapInt nums.sum) ∧
    (wrapInt nums.sum = nums.sum ↔ isInt nums.sum) ∧
    (nums = [] → wrapInt nums.sum = 0) := by
  have h : sumHandler jsonDecode [] req
      = some [dumpLine dump, jsonHeader, .encode (.result ⟨wrapInt nums.sum⟩)] := by
    simp [sumHandler, dumpRequest_ok _ _ _ hd, decodeJSONBody_ok _ _ _ _ hm hdec,
      writeResponse, foldl_goAdd_zero, jsonHeader]
  refine ⟨h, ?_, isInt_wrapInt _, wrapInt_eq_self_iff _, ?_⟩
  · rw [h]
    rfl
  · intro he
    subst he
    decide

/-- C4 (witness): the body `[]` gives `{"result":0}`. -/
theorem sumHandler_wrapped_sum_witness :
    sumHandler (decodeOnly "[]" []) [] (readableRequest "POST" "[]")
      = some [dumpLine "[]", jsonHeader, .encode (.result ⟨0⟩)] :=
  (sumHandler_wrapped_sum (decodeOnly "[]" []) (readableRequest "POST" "[]") "[]" []
    rfl rfl rfl).1

/-! ## `/divide` -/

theorem divideHandler_nonzero (jsonDecode : String → Except String NumbersStruct)
    (req : Request) (dump : String) (a b : Int)
    (hm : req.Method = MethodPost) (hd : req.dump = .ok dump)
    (hdec : jsonDecode req.Body = .ok ⟨a, b⟩) (hb0 : b ≠ 0) :
    divideHandler jsonDecode [] req
      = some [dumpLine dump, jsonHeader,
          .encode (.divide ⟨wrapInt (Int.tdiv a b), wrapInt (Int.tmod a b)⟩)] := by
  simp [divideHandler, dumpRequest_ok _ _ _ hd, decodeJSONBody_ok _ _ _ _ hm hdec,
    writeResponse, goDiv, goMod, hb0, jsonHeader]

theorem divideHandler_isSome (jsonDecode : String → Except String NumbersStruct)
    (w : ResponseWriter) (req : Request) : (divideHandler jsonDecode w req).isSome = true := by
  unfold divideHandler decodeJSONBody
  by_cases hm : req.Method = MethodPost
  · cases hdec : jsonDecode req.Body with
    | error err => simp [hm, hdec]
    | ok val =>
      by_cases h0 : val.Number2 = 0
      · simp [hm, hdec, h0]
      · simp [hm, hdec, h0, goDiv, goMod]
  · simp [hm]

/-- C2 (counterexample): on the Go ints `number1 = -2^63`, `number2 = -1` the `/divide`
handler answers the quotient `-2^63`, while the exact truncated quotient is `2^63`. -/
theorem divideHandler_exact_quotient_fails :
    isInt (-(2 ^ 63)) ∧ isInt (-1) ∧
    (divideHandler (decodeOnly "\x7b\"number1\":-9223372036854775808,\"number2\":-1\x7d"
        ⟨-(2 ^ 63), -1⟩) []
      (readableRequest "POST"
        "\x7b\"number1\":-9223372036854775808,\"number2\":-1\x7d")).map results
      = some [.divide ⟨-(2 ^ 63), 0⟩] ∧
    Int.tdiv (-(2 ^ 63)) (-1) = 2 ^ 63 ∧
    (-(2 ^ 63) : Int) ≠ Int.tdiv (-(2 ^ 63)) (-1) := by
  decide

/-- C2 (amended): a POST to `/divide` whose body was read and decodes to the Go ints
`number1 = a`, `number2 = b` with `b ≠ 0` logs the dump and writes exactly one JSON
result with status 200: the remainder is `a - b * trunc(a / b)` and the quotient is
`trunc(a / b)` wrapped into the Go int range, which is `trunc(a / b)` itself for every
input but `a = -2^63`, `b = -1`, where the quotient written is `-2^63` and the
remainder 0. -/
theorem divideHandler_truncated (jsonDecode : String → Except String NumbersStruct)
    (req : Request) (dump : String) (a b : Int)
    (hm : req.Method = MethodPost) (hd : req.dump = .ok dump)
    (hdec : jsonDecode req.Body = .ok ⟨a, b⟩)
    (ha : isInt a) (hb : isInt b) (hb0 : b ≠ 0) :
    divideHandler jsonDecode [] req
      = some [dumpLine dump, jsonHeader,
          .encode (.divide ⟨wrapInt (Int.tdiv a b), a - b * Int.tdiv a b⟩)] ∧
    (divideHandler jsonDecode [] req).map statusCode = some 200 ∧
    (¬ (a = minInt ∧ b = -1) → wrapInt (Int.tdiv a b) = Int.tdiv a b) ∧
    (a = minInt ∧ b = -1 → wrapInt (Int.tdiv a b) = minInt ∧ a - b * Int.tdiv a b = 0) := by
  have hr : wrapInt (Int.tmod a b) = a - b * Int.tdiv a b := by
    rw [(wrapInt_eq_self_iff _).2 (isInt_tmod a b hb hb0), Int.tmod_def]
  have h := divideHandler_nonzero jsonDecode req dump a b hm hd hdec hb0
  rw [hr] at h
  refine ⟨h, ?_, fun hne => (wrapInt_eq_self_iff _).2 (isInt_tdiv a b ha hb0 hne), ?_⟩
  · rw [h]
    rfl
  · rintro ⟨rfl, rfl⟩
    decide

/-- C2 (witness): the body `{"number1":7,"number2":2}` gives
`{"quotient":3,"remainder":1}`. -/
theorem divideHandler_truncated_witness :
    divideHandler (decodeOnly "\x7b\"number1\":7,\"number2\":2\x7d" ⟨7, 2⟩) []
      (readableRequest "POST" "\x7b\"number1\":7,\"number2\":2\x7d")
      = some [dumpLine "\x7b\"number1\":7,\"number2\":2\x7d", jsonHeader,
          .encode (.divide ⟨3, 1⟩)] :=
  (divideHandler_truncated (decodeOnly "\x7b\"number1\":7,\"number2\":2\x7d" ⟨7, 2⟩)
    (readableRequest "POST" "\x7b\"number1\":7,\"number2\":2\x7d")
    "\x7b\"number1\":7,\"number2\":2\x7d" 7 2 rfl rfl rfl
    (by decide) (by decide) (by decide)).1

/-- C3: a POST to `/divide` whose body was read and decodes to `number2 = 0` (any
`number1`) logs the error and answers `http.Error` with status 400 and the message
"Number 2 value cannot be 0!": that is the only write, no quotient/remainder value is
serialised, and the handler returns without panicking although `a / 0` and `a % 0` would
panic: neither is evaluated. Moreover `divideHandler` never panics on any request, so it
never divides by zero. -/
theorem divideHandler_zero_divisor (jsonDecode : String → Except String NumbersStruct)
    (req : Request) (dump : String) (a : Int)
    (hm : req.Method = MethodPost) (hd : req.dump = .ok dump)
    (hdec : jsonDecode req.Body = .ok ⟨a, 0⟩) :
    divideHandler jsonDecode [] req
      = some [dumpLine dump,
          .slog .error "Number 2 cannot be 0!" "reason" "cannot divide by 0",
          .httpError "Number 2 value cannot be 0!" 400] ∧
    (divideHandler jsonDecode [] req).map statusCode = some 400 ∧
    (divideHandler jsonDecode [] req).map responses
      = some [.httpError "Number 2 value cannot be 0!" 400] ∧
    (divideHandler jsonDecode [] req).map results = some [] ∧
    goDiv a 0 = none ∧ goMod a 0 = none ∧
    (∀ (dec : String → Except String NumbersStruct) (w : ResponseWriter) (r : Request),
      (divideHandler dec w r).isSome = true) := by
  have h : divideHandler jsonDecode [] req
      = some [dumpLine dump,
          .slog .error "Number 2 cannot be 0!" "reason" "cannot divide by 0",
          .httpError "Number 2 value cannot be 0!" 400] := by
    simp [divideHandler, dumpRequest_ok _ _ _ hd, decodeJSONBody_ok _ _ _ _ hm hdec,
      StatusBadRequest]
  refine ⟨h, ?_, ?_, ?_, rfl, rfl, divideHandler_isSome⟩ <;> rw [h] <;> rfl

/-- C3 (witness): the body `{"number1":7,"number2":0}` is rejected with status 400. -/
theorem divideHandler_zero_divisor_witness :
    (divideHandler (decodeOnly "\x7b\"number1\":7,\"number2\":0\x7d" ⟨7, 0⟩) []
      (readableRequest "POST" "\x7b\"number1\":7,\"number2\":0\x7d")).map statusCode
      = some 400 :=
  (divideHandler_zero_divisor (decodeOnly "\x7b\"number1\":7,\"number2\":0\x7d" ⟨7, 0⟩)
    (readableRequest "POST" "\x7b\"number1\":7,\"number2\":0\x7d")
    "\x7b\"number1\":7,\"number2\":0\x7d" 7 rfl rfl rfl).2.1

/-- C10: for Go ints `a`, `b` with `b ≠ 0` (the pair `a = -2^63`, `b = -1` included) the
quotient `q` and remainder `r` that `/divide` writes satisfy `a = q * b + r` in Go's
wrapping arithmetic, `|r| < |b|`, and `r` is 0 or has the sign of the dividend `a`; in
particular a non-zero `r` does not take the divisor's sign when the two signs differ. -/
theorem divideHandler_quotient_remainder
    (jsonDecode : String → Except String NumbersStruct)
    (req : Request) (dump : String) (a b : Int)
    (hm : req.Method = MethodPost) (hd : req.dump = .ok dump)
    (hdec : jsonDecode req.Body = .ok ⟨a, b⟩)
    (ha : isInt a) (hb : isInt b) (hb0 : b ≠ 0) :
    ∃ q r : Int,
      divideHandler jsonDecode [] req
        = some [dumpLine dump, jsonHeader, .encode (.divide ⟨q, r⟩)] ∧
      isInt q ∧ isInt r ∧
      goAdd (goMul q b) r = a ∧
      |r| < |b| ∧
      (r = 0 ∨ Int.sign r = Int.sign a) ∧
      (r ≠ 0 → Int.sign a ≠ Int.sign b → Int.sign r ≠ Int.sign b) := by
  have hrr : wrapInt (Int.tmod a b) = Int.tmod a b :=
    (wrapInt_eq_self_iff _).2 (isInt_tmod a b hb hb0)
  have hsb := tmod_sign_bounds a b hb0
  have hsign : Int.tmod a b = 0 ∨ Int.sign (Int.tmod a b) = Int.sign a := by
    rcases lt_trichotomy a 0 with hneg | hzero | hpos
    · have h1 := hsb.2 (le_of_lt hneg)
      rcases eq_or_lt_of_le h1.1 with h0 | hlt
      · exact Or.inl h0
      · exact Or.inr (by rw [Int.sign_eq_neg_one_of_neg hlt, Int.sign_eq_neg_one_of_neg hneg])
    · subst hzero
      exact Or.inl (Int.zero_tmod b)
    · have h1 := hsb.1 (le_of_lt hpos)
      rcases eq_or_lt_of_le h1.1 with h0 | hlt
      · exact Or.inl h0.symm
      · exact Or.inr (by rw [Int.sign_eq_one_of_pos hlt, Int.sign_eq_one_of_pos hpos])
  refine ⟨wrapInt (Int.tdiv a b), wrapInt (Int.tmod a b),
    divideHandler_nonzero jsonDecode req dump a b hm hd hdec hb0,
    isInt_wrapInt _, isInt_wrapInt _, ?_, ?_, ?_, ?_⟩
  · have hid : Int.tdiv a b * b + Int.tmod a b = a := Int.tdiv_add_tmod' a b
    have hw : goAdd (goMul (wrapInt (Int.tdiv a b)) b) (wrapInt (Int.tmod a b))
        = wrapInt (Int.tdiv a b * b + Int.tmod a b) := by
      rw [hrr]
      unfold goAdd goMul wrapInt
      generalize Int.tdiv a b = q
      generalize Int.tmod a b = r
      have e : ((q + 2 ^ 63) % 2 ^ 64 - 2 ^ 63) * b
          = q * b - (q + 2 ^ 63) / 2 ^ 64 * 2 ^ 64 * b := by
        have := Int.emod_add_ediv (q + 2 ^ 63) (2 ^ 64)
        linear_combination b * this
      rw [e]
      generalize (q + 2 ^ 63) / 2 ^ 64 = k
      generalize hqb : q * b = m
      have e2 : m - k * 2 ^ 64 * b = m - 2 ^ 64 * (k * b) := by ring
      rw [e2]
      generalize k * b = n
      omega
    rw [hw, hid]
    exact (wrapInt_eq_self_iff a).2 ha
  · rw [hrr]
    rcases le_total 0 a with h0 | h0
    · have h1 := hsb.1 h0
      rw [abs_of_nonneg h1.1]
      exact h1.2
    · have h1 := hsb.2 h0
      rw [abs_of_nonpos h1.1]
      omega
  · rw [hrr]
    exact hsign
  · rw [hrr]
    intro hr0 hab
    rcases hsign with h | h
    · exact absurd h hr0
    · rw [h]
      exact hab

/-- C10 (witness): `a = -2^63`, `b = -1` gives the quotient `-2^63` and the remainder 0. -/
theorem divideHandler_quotient_remainder_witness :
    ∃ q r : Int,
      divideHandler (decodeOnly "\x7b\"number1\":-9223372036854775808,\"number2\":-1\x7d"
          ⟨minInt, -1⟩) []
        (readableRequest "POST" "\x7b\"number1\":-9223372036854775808,\"number2\":-1\x7d")
        = some [dumpLine "\x7b\"number1\":-9223372036854775808,\"number2\":-1\x7d",
            jsonHeader, .encode (.divide ⟨q, r⟩)] ∧
      isInt q ∧ isInt r ∧
      goAdd (goMul q (-1)) r = minInt ∧
      |r| < |(-1 : Int)| ∧
      (r = 0 ∨ Int.sign r = Int.sign minInt) ∧
      (r ≠ 0 → Int.sign minInt ≠ Int.sign (-1) → Int.sign r ≠ Int.sign (-1)) :=
  divideHandler_quotient_remainder
    (decodeOnly "\x7b\"number1\":-9223372036854775808,\"number2\":-1\x7d" ⟨minInt, -1⟩)
    (readableRequest "POST" "\x7b\"number1\":-9223372036854775808,\"number2\":-1\x7d")
    "\x7b\"number1\":-9223372036854775808,\"number2\":-1\x7d" minInt (-1) rfl rfl rfl
    (by decide) (by decide) (by decide)

/-! ## Rejections of `decodeJSONBody` -/

theorem decodeJSONBody_not_post {T : Type} (jsonDecode : String → Except String T)
    (w : ResponseWriter) (req : Request) (hm : req.Method ≠ MethodPost) :
    decodeJSONBody jsonDecode w req = (w ++ methodNotAllowed req, none, false) := by
  simp [decodeJSONBody, hm, methodNotAllowed, StatusMethodNotAllowed]

theorem decodeJSONBody_malformed {T : Type} (jsonDecode : String → Except String T)
    (w : ResponseWriter) (req : Request) (err : String)
    (hm : req.Method = MethodPost) (hdec : jsonDecode req.Body = .error err) :
    decodeJSONBody jsonDecode w req = (w ++ decodeFailure err, none, false) := by
  simp [decodeJSONBody, hm, hdec, decodeFailure, StatusBadRequest]

theorem results_dumpRequest (req : Request) : results (dumpRequest [] req) = [] := by
  unfold dumpRequest
  cases req.dump <;> rfl

theorem pairHandler_of_failure
    (h : (String → Except String NumbersStruct) → ResponseWriter → Request →
      Option ResponseWriter) (hh : h ∈ pairHandlers)
    (jsonDecode : String → Except String NumbersStruct) (req : Request) (tail : List Effect)
    (hfail : decodeJSONBody jsonDecode (dumpRequest [] req) req
      = (dumpRequest [] req ++ tail, none, false)) :
    h jsonDecode [] req = some (dumpRequest [] req ++ tail) := by
  simp only [pairHandlers, List.mem_cons, List.mem_singleton, List.not_mem_nil,
    or_false] at hh
  rcases hh with rfl | rfl | rfl | rfl
  · simp only [addHandler, hfail]
  · simp only [subtractHandler, hfail]
  · simp only [multiplyHandler, hfail]
  · simp only [divideHandler, hfail]

theorem sumHandler_of_failure (jsonDecode : String → Except String (List Int))
    (req : Request) (tail : List Effect)
    (hfail : decodeJSONBody jsonDecode (dumpRequest [] req) req
      = (dumpRequest [] req ++ tail, none, false)) :
    sumHandler jsonDecode [] req = some (dumpRequest [] req ++ tail) := by
  simp only [sumHandler, hfail]

/-- C7 (counterexample): a GET to `/add` whose body stream breaks while it is read is not
answered with 405: `dumpRequest` has already answered 500, which is the status the client
receives, and the 405 rejection is only the second write. -/
theorem non_post_failed_dump_is_not_405 :
    (truncatedRequest "GET").Method ≠ MethodPost ∧
    (addHandler decodeEOF [] (truncatedRequest "GET")).map statusCode = some 500 ∧
    (addHandler decodeEOF [] (truncatedRequest "GET")).map statusCode ≠ some 405 ∧
    (addHandler decodeEOF [] (truncatedRequest "GET")).map responses
      ≠ some [.httpError "Method not allowed!" 405] := by
  decide

/-- C7 (amended): on a request whose method is not POST and whose dump succeeded, whatever
the body and the decoder, each of the handlers of `/add`, `/subtract`, `/multiply`,
`/divide` and `/sum` logs the dump, logs the warning and calls `http.Error` with
"Method not allowed!" and 405: that is the only write, so the response is HTTP 405, and no
result is serialised. `decodeJSONBody` returns `(nil, false)` and its outcome is the same
for every decoder: the body is never decoded. -/
theorem non_post_is_method_not_allowed (req : Request) (dump : String)
    (hm : req.Method ≠ MethodPost) (hd : req.dump = .ok dump) :
    (∀ h ∈ pairHandlers, ∀ jsonDecode : String → Except String NumbersStruct,
      h jsonDecode [] req = some (dumpLine dump :: methodNotAllowed req) ∧
      (h jsonDecode [] req).map statusCode = some 405 ∧
      (h jsonDecode [] req).map responses = some [.httpError "Method not allowed!" 405] ∧
      (h jsonDecode [] req).map results = some []) ∧
    (∀ jsonDecode : String → Except String (List Int),
      sumHandler jsonDecode [] req = some (dumpLine dump :: methodNotAllowed req) ∧
      (sumHandler jsonDecode [] req).map statusCode = some 405 ∧
      (sumHandler jsonDecode [] req).map responses
        = some [.httpError "Method not allowed!" 405] ∧
      (sumHandler jsonDecode [] req).map results = some []) ∧
    (∀ (T : Type) (jsonDecode : String → Except String T) (w : ResponseWriter),
      decodeJSONBody jsonDecode w req = (w ++ methodNotAllowed req, none, false)) := by
  have hdump : dumpRequest [] req ++ methodNotAllowed req
      = dumpLine dump :: methodNotAllowed req := by
    rw [dumpRequest_ok _ _ _ hd]
    rfl
  refine ⟨?_, ?_, fun T dec w => decodeJSONBody_not_post dec w req hm⟩
  · intro h hh dec
    have e := pairHandler_of_failure h hh dec req _ (decodeJSONBody_not_post dec _ req hm)
    rw [hdump] at e
    rw [e]
    exact ⟨rfl, rfl, rfl, rfl⟩
  · intro dec
    have e := sumHandler_of_failure dec req _ (decodeJSONBody_not_post dec _ req hm)
    rw [hdump] at e
    rw [e]
    exact ⟨rfl, rfl, rfl, rfl⟩

/-- C7 (witness): a GET to `/divide` with the body `{"number1":7,"number2":0}` is answered
with 405 and nothing else. -/
theorem non_post_is_method_not_allowed_witness :
    (divideHandler (decodeOnly "\x7b\"number1\":7,\"number2\":0\x7d" ⟨7, 0⟩) []
      (readableRequest "GET" "\x7b\"number1\":7,\"number2\":0\x7d")).map responses
      = some [.httpError "Method not allowed!" 405] :=
  ((non_post_is_method_not_allowed
    (readableRequest "GET" "\x7b\"number1\":7,\"number2\":0\x7d")
    "\x7b\"number1\":7,\"number2\":0\x7d" (by decide) rfl).1
    divideHandler (by simp [pairHandlers])
    (decodeOnly "\x7b\"number1\":7,\"number2\":0\x7d" ⟨7, 0⟩)).2.2.1

/-- C8 (counterexample): a POST to `/add` whose body stream breaks while it is read fails
to parse (the decoder reports `EOF`), yet it is not answered with 400 and the parser's
message alone: `dumpRequest` has already answered 500, which is the status the client
receives, and the 400 rejection is only the second write. -/
theorem malformed_post_failed_dump_is_not_400 :
    (truncatedRequest "POST").Method = MethodPost ∧
    (decodeEOF (truncatedRequest "POST").Body : Except String NumbersStruct)
      = .error "EOF" ∧
    (addHandler decodeEOF [] (truncatedRequest "POST")).map statusCode = some 500 ∧
    (addHandler decodeEOF [] (truncatedRequest "POST")).map statusCode ≠ some 400 ∧
    (addHandler decodeEOF [] (truncatedRequest "POST")).map responses
      ≠ some [.httpError "EOF" 400] := by
  refine ⟨rfl, rfl, ?_, ?_, ?_⟩ <;> decide

/-- C8 (amended): on a POST request whose dump succeeded and whose body the JSON decoder
rejects with error `err`, each of the handlers of `/add`, `/subtract`, `/multiply`,
`/divide` and `/sum` logs the dump, logs the error and calls `http.Error` with `err` and
400: that is the only write, so the response is HTTP 400 carrying the parser's message,
and no result is serialised; `decodeJSONBody` returns `(nil, false)`. Conversely, on any
request, a handler that serialised a result did so after `decodeJSONBody` returned
`true`. -/
theorem malformed_post_is_bad_request (req : Request) (dump : String)
    (hm : req.Method = MethodPost) (hd : req.dump = .ok dump) :
    (∀ h ∈ pairHandlers, ∀ (jsonDecode : String → Except String NumbersStruct) (err : String),
      jsonDecode req.Body = .error err →
      h jsonDecode [] req = some (dumpLine dump :: decodeFailure err) ∧
      (h jsonDecode [] req).map statusCode = some 400 ∧
      (h jsonDecode [] req).map responses = some [.httpError err 400] ∧
      (h jsonDecode [] req).map results = some []) ∧
    (∀ (jsonDecode : String → Except String (List Int)) (err : String),
      jsonDecode req.Body = .error err →
      sumHandler jsonDecode [] req = some (dumpLine dump :: decodeFailure err) ∧
      (sumHandler jsonDecode [] req).map statusCode = some 400 ∧
      (sumHandler jsonDecode [] req).map responses = some [.httpError err 400] ∧
      (sumHandler jsonDecode [] req).map results = some []) ∧
    (∀ (T : Type) (jsonDecode : String → Except String T) (w : ResponseWriter) (err : String),
      jsonDecode req.Body = .error err →
      decodeJSONBody jsonDecode w req = (w ++ decodeFailure err, none, false)) ∧
    (∀ h ∈ pairHandlers, ∀ (jsonDecode : String → Except String NumbersStruct)
      (r : Request) (out : ResponseWriter) (v : Payload),
      h jsonDecode [] r = some out → v ∈ results out →
      (decodeJSONBody jsonDecode (dumpRequest [] r) r).2.2 = true) ∧
    (∀ (jsonDecode : String → Except String (List Int))
      (r : Request) (out : ResponseWriter) (v : Payload),
      sumHandler jsonDecode [] r = some out → v ∈ results out →
      (decodeJSONBody jsonDecode (dumpRequest [] r) r).2.2 = true) := by
  have hdump : ∀ err : String, dumpRequest [] req ++ decodeFailure err
      = dumpLine dump :: decodeFailure err := by
    intro err
    rw [dumpRequest_ok _ _ _ hd]
    rfl
  have hres : ∀ (r : Request) (tail : List Effect), results tail = [] →
      results (dumpRequest [] r ++ tail) = [] := by
    intro r tail ht
    unfold results at *
    rw [List.filterMap_append, ht]
    have := results_dumpRequest r
    unfold results at this
    rw [this]
    rfl
  have hconv : ∀ (T : Type) (dec : String → Except String T) (r : Request),
      (decodeJSONBody dec (dumpRequest [] r) r).2.2 = true ∨
      ∃ tail, results tail = [] ∧
        decodeJSONBody dec (dumpRequest [] r) r = (dumpRequest [] r ++ tail, none, false) := by
    intro T dec r
    by_cases hp : r.Method = MethodPost
    · cases hdec : dec r.Body with
      | error err =>
        exact Or.inr ⟨decodeFailure err, rfl, decodeJSONBody_malformed dec _ r err hp hdec⟩
      | ok val =>
        exact Or.inl (by rw [decodeJSONBody_ok dec _ r val hp hdec])
    · exact Or.inr ⟨methodNotAllowed r, rfl, decodeJSONBody_not_post dec _ r hp⟩
  refine ⟨?_, ?_, fun T dec w err hdec => decodeJSONBody_malformed dec w req err hm hdec,
    ?_, ?_⟩
  · intro h hh dec err hdec
    have e := pairHandler_of_failure h hh dec req _
      (decodeJSONBody_malformed dec _ req err hm hdec)
    rw [hdump] at e
    rw [e]
    exact ⟨rfl, rfl, rfl, rfl⟩
  · intro dec err hdec
    have e := sumHandler_of_failure dec req _
      (decodeJSONBody_malformed dec _ req err hm hdec)
    rw [hdump] at e
    rw [e]
    exact ⟨rfl, rfl, rfl, rfl⟩
  · intro h hh dec r out v hout hv
    rcases hconv _ dec r with hok | ⟨tail, ht, hfail⟩
    · exact hok
    · rw [pairHandler_of_failure h hh dec r tail hfail] at hout
      cases hout
      rw [hres r tail ht] at hv
      cases hv
  · intro dec r out v hout hv
    rcases hconv _ dec r with hok | ⟨tail, ht, hfail⟩
    · exact hok
    · rw [sumHandler_of_failure dec r tail hfail] at hout
      cases hout
      rw [hres r tail ht] at hv
      cases hv

/-- C8 (witness): a POST to `/add` with the body `{"number1":`, which the decoder rejects
with `unexpected EOF`, is answered with 400 and that message. -/
theorem malformed_post_is_bad_request_witness :
    (addHandler (decodeRejecting "unexpected EOF") []
      (readableRequest "POST" "\x7b\"number1\":")).map responses
      = some [.httpError "unexpected EOF" 400] :=
  ((malformed_post_is_bad_request (readableRequest "POST" "\x7b\"number1\":")
    "\x7b\"number1\":" rfl rfl).1
    addHandler (by simp [pairHandlers])
    (decodeRejecting "unexpected EOF") "unexpected EOF" rfl).2.2.1

/-! ## One response per request -/

theorem handlers_one_response_of_dump_ok (req : Request) (dump : String)
    (hd : req.dump = .ok dump) :
    (∀ h ∈ pairHandlers, ∀ jsonDecode : String → Except String NumbersStruct,
      ∃ out, h jsonDecode [] req = some out ∧ (responses out).length = 1) ∧
    (∀ jsonDecode : String → Except String (List Int),
      ∃ out, sumHandler jsonDecode [] req = some out ∧ (responses out).length = 1) ∧
    (∃ out, helloHandler [] req = some out ∧ (responses out).length = 1) := by
  refine ⟨?_, ?_, ?_⟩
  · intro h hh dec
    by_cases hm : req.Method = MethodPost
    · cases hdec : dec req.Body with
      | error err =>
        refine ⟨_, pairHandler_of_failure h hh dec req _
          (decodeJSONBody_malformed dec _ req err hm hdec), ?_⟩
        rw [dumpRequest_ok _ _ _ hd]
        rfl
      | ok val =>
        simp only [pairHandlers, List.mem_cons, List.mem_singleton, List.not_mem_nil,
          or_false] at hh
        rcases hh with rfl | rfl | rfl | rfl
        · exact ⟨_, (addHandler_decoded dec req dump val hm hd hdec), rfl⟩
        · refine ⟨[dumpLine dump, jsonHeader,
            .encode (.result ⟨goSub val.Number1 val.Number2⟩)], ?_, rfl⟩
          simp [subtractHandler, dumpRequest_ok _ _ _ hd, decodeJSONBody_ok _ _ _ _ hm hdec,
            writeResponse, jsonHeader]
        · refine ⟨[dumpLine dump, jsonHeader,
            .encode (.result ⟨goMul val.Number1 val.Number2⟩)], ?_, rfl⟩
          simp [multiplyHandler, dumpRequest_ok _ _ _ hd, decodeJSONBody_ok _ _ _ _ hm hdec,
            writeResponse, jsonHeader]
        · by_cases h0 : val.Number2 = 0
          · refine ⟨[dumpLine dump,
              .slog .error "Number 2 cannot be 0!" "reason" "cannot divide by 0",
              .httpError "Number 2 value cannot be 0!" 400], ?_, rfl⟩
            simp [divideHandler, dumpRequest_ok _ _ _ hd,
              decodeJSONBody_ok _ _ _ _ hm hdec, h0, StatusBadRequest]
          · exact ⟨_, divideHandler_nonzero dec req dump val.Number1 val.Number2 hm hd
              hdec h0, rfl⟩
    · refine ⟨_, pairHandler_of_failure h hh dec req _
        (decodeJSONBody_not_post dec _ req hm), ?_⟩
      rw [dumpRequest_ok _ _ _ hd]
      rfl
  · intro dec
    by_cases hm : req.Method = MethodPost
    · cases hdec : dec req.Body with
      | error err =>
        refine ⟨_, sumHandler_of_failure dec req _
          (decodeJSONBody_malformed dec _ req err hm hdec), ?_⟩
        rw [dumpRequest_ok _ _ _ hd]
        rfl
      | ok val =>
        refine ⟨[dumpLine dump, jsonHeader,
          .encode (.result ⟨val.foldl (fun res v => goAdd res v) 0⟩)], ?_, rfl⟩
        simp [sumHandler, dumpRequest_ok _ _ _ hd, decodeJSONBody_ok _ _ _ _ hm hdec,
          writeResponse, jsonHeader]
    · refine ⟨_, sumHandler_of_failure dec req _ (decodeJSONBody_not_post dec _ req hm), ?_⟩
      rw [dumpRequest_ok _ _ _ hd]
      rfl
  · by_cases hm : req.Method = MethodPost
    · exact ⟨[dumpLine dump, .fprint "Received POST request!"],
        by simp [helloHandler, hm, dumpRequest_ok _ _ _ hd], rfl⟩
    · exact ⟨[dumpLine dump, .fprint "Request received and logged!"],
        by simp [helloHandler, hm, dumpRequest_ok _ _ _ hd], rfl⟩

/-- C9 (the code at the failing input): on a request whose dump fails, every handler goes
on after `dumpRequest` has answered 500. A POST whose body stream breaks gets two error
responses from each JSON handler (500, then 400 from the decoder) and the 500 followed by
the greeting from `helloHandler`; a GET gets 500 and then 405. -/
theorem handlers_continue_after_failed_dump :
    (addHandler decodeEOF [] (truncatedRequest "POST")).map responses
      = some [.httpError "unexpected EOF" 500, .httpError "EOF" 400] ∧
    (subtractHandler decodeEOF [] (truncatedRequest "POST")).map responses
      = some [.httpError "unexpected EOF" 500, .httpError "EOF" 400] ∧
    (multiplyHandler decodeEOF [] (truncatedRequest "POST")).map responses
      = some [.httpError "unexpected EOF" 500, .httpError "EOF" 400] ∧
    (divideHandler decodeEOF [] (truncatedRequest "POST")).map responses
      = some [.httpError "unexpected EOF" 500, .httpError "EOF" 400] ∧
    (sumHandler decodeEOF [] (truncatedRequest "POST")).map responses
      = some [.httpError "unexpected EOF" 500, .httpError "EOF" 400] ∧
    (helloHandler [] (truncatedRequest "POST")).map responses
      = some [.httpError "unexpected EOF" 500, .fprint "Received POST request!"] ∧
    (addHandler decodeEOF [] (truncatedRequest "GET")).map responses
      = some [.httpError "unexpected EOF" 500, .httpError "Method not allowed!" 405] ∧
    (addHandler decodeEOF [] (truncatedRequest "POST")).map statusCode = some 500 := by
  decide

end Calculator
